import Mathlib

/-!
Shallow embedding of the LocalLLMMailScreener orchestrator core:
the bounded LLM work queue (`createLlmQueue`), the durable state store
(`createStateManager`), the poll orchestrator (`pollGmail`), the per-item
pipeline (`processSingleMessage`) and the health aggregator (`buildHealth`).

JavaScript numbers that the code only ever uses as non-negative integers
(`Date.now()` timestamps, counters, latencies, token counts) are modelled
as `Nat`.  JavaScript string truthiness (`if (id)`, `!stats.x.last_error`)
is modelled as comparison with the empty string; numeric truthiness
(`stats.llm.last_health_check_at`, `||=`) as comparison with `0`.
`Date.now()` is threaded as an explicit `now : Nat` argument wherever the
source calls it.
-/

namespace MailScreener

/-! ## Bounded LLM work queue (`createLlmQueue`) -/

/-- A queue task as enqueued by `pollGmail`: `{ id: m.id, messageMeta: m }`.
Only the identifier matters to the queue logic; an empty string models a
falsy (absent) `id`. -/
structure LlmTask where
  id : String
  deriving DecidableEq, Repr

/-- Mutable closure state of `createLlmQueue`.

`pending` keeps, next to each task, a ghost sequence number (the value of
`clock` when the task was appended); the source does not store it, it is
instrumentation that lets us speak about "enqueue time".  `drops` is the
ghost log of every task handed to the `onDrop` callback, oldest first. -/
structure QueueState where
  pending : List (LlmTask × Nat)
  pendingIds : List String
  runningKeys : List (Option String)
  droppedTotal : Nat
  lastDroppedAt : Nat
  drops : List (LlmTask × Nat)
  clock : Nat
  deriving DecidableEq, Repr

def initQueue : QueueState :=
  { pending := [], pendingIds := [], runningKeys := [], droppedTotal := 0,
    lastDroppedAt := 0, drops := [], clock := 0 }

/-- `depth = () => pending.length + runningIds.size`. -/
def depth (s : QueueState) : Nat :=
  s.pending.length + s.runningKeys.length

/-- `dropOldest`: shift the head of `pending`, forget its id, count the
drop, stamp `lastDroppedAt`, and fire `onDrop` (logged in `drops`). -/
def dropOldest (now : Nat) (s : QueueState) : QueueState :=
  match s.pending with
  | [] => s
  | d :: rest =>
      { s with
        pending := rest,
        pendingIds := if d.1.id ≠ "" then s.pendingIds.erase d.1.id else s.pendingIds,
        droppedTotal := s.droppedTotal + 1,
        lastDroppedAt := now,
        drops := s.drops ++ [d] }

/-- The loop body of `enforceCapacity`, structurally recursive on a fuel
counter so that it evaluates by `rfl`/`decide`.  Each iteration of the
source loop removes one element of `pending` and the loop guard requires
`pending` non-empty, so `s.pending.length` units of fuel make the loop run
to its real exit condition (`enforceLoop_fuel_stable` below). -/
def enforceLoop (maxQueue now fuel : Nat) (s : QueueState) : QueueState :=
  match fuel with
  | 0 => s
  | fuel + 1 =>
      if 0 < maxQueue ∧ maxQueue < depth s ∧ s.pending ≠ [] then
        enforceLoop maxQueue now fuel (dropOldest now s)
      else s

/-- `enforceCapacity`: `while (maxQueue > 0 && depth() > maxQueue &&
pending.length) dropOldest()`. -/
def enforceCapacity (maxQueue now : Nat) (s : QueueState) : QueueState :=
  enforceLoop maxQueue now s.pending.length s

/-- `runningIds.add(key)`: a JS `Set` add.  A truthy task id is its own
key (string), so adding is a no-op when present; an id-less task gets a
fresh `Symbol`, which never collides, modelled as appending `none`. -/
def addRunningKey (keys : List (Option String)) (k : Option String) :
    List (Option String) :=
  match k with
  | some i => if some i ∈ keys then keys else keys ++ [some i]
  | none => keys ++ [none]

/-- The loop body of `pump`, fuel-structured like `enforceLoop`: each
iteration of the source loop shifts one element off `pending`, so
`s.pending.length` units of fuel reach the real exit condition. -/
def pumpLoop (maxConcurrency fuel : Nat) (s : QueueState) : QueueState :=
  match fuel with
  | 0 => s
  | fuel + 1 =>
      match s.pending with
      | [] => s
      | t :: rest =>
          if s.runningKeys.length < maxConcurrency then
            pumpLoop maxConcurrency fuel
              { s with
                pending := rest,
                pendingIds :=
                  if t.1.id ≠ "" then s.pendingIds.erase t.1.id else s.pendingIds,
                runningKeys :=
                  addRunningKey s.runningKeys
                    (if t.1.id ≠ "" then some t.1.id else none) }
          else s

/-- `pump`: `while (runningIds.size < maxConcurrency && pending.length)`
shift the oldest pending task into the running set.  (Starting the async
`processFn` and its completion are separate events, see `QEvent.fin`.) -/
def pump (maxConcurrency : Nat) (s : QueueState) : QueueState :=
  pumpLoop maxConcurrency s.pending.length s

/-- `enqueue(task)`: duplicate suppression, append, `enforceCapacity()`,
`pump()`.  Returns the new state and the `enqueued` flag. -/
def enqueue (maxQueue maxConcurrency now : Nat) (s : QueueState) (t : LlmTask) :
    QueueState × Bool :=
  if t.id ≠ "" ∧ (t.id ∈ s.pendingIds ∨ some t.id ∈ s.runningKeys) then
    (s, false)
  else
    let s1 : QueueState :=
      { s with
        pending := s.pending ++ [(t, s.clock)],
        pendingIds := if t.id ≠ "" then s.pendingIds ++ [t.id] else s.pendingIds,
        clock := s.clock + 1 }
    (pump maxConcurrency (enforceCapacity maxQueue now s1), true)

/-- A queue-level event: an `enqueue` call, or the completion of one
running task (`finally` block of `pump`'s worker: delete the key, then
`pump()` again). -/
inductive QEvent where
  | enq (now : Nat) (t : LlmTask)
  | fin (key : Option String)
  deriving DecidableEq, Repr

def qstep (maxQueue maxConcurrency : Nat) (s : QueueState) (e : QEvent) :
    QueueState :=
  match e with
  | .enq now t => (enqueue maxQueue maxConcurrency now s t).1
  | .fin k => pump maxConcurrency { s with runningKeys := s.runningKeys.erase k }

/-- The queue state reached from a fresh queue by a sequence of events. -/
def runQ (maxQueue maxConcurrency : Nat) (es : List QEvent) : QueueState :=
  es.foldl (qstep maxQueue maxConcurrency) initQueue

/-- Ghost ordering invariant of the queue: the pending list carries its
entries in enqueue order (their sequence stamps increase left to right and
are all below the current clock). -/
def PendingOrdered (s : QueueState) : Prop :=
  List.Pairwise (· ≤ ·) (s.pending.map Prod.snd) ∧ ∀ x ∈ s.pending, x.2 < s.clock

/-! ## Durable state store (`createStateManager`) -/

/-- `{ ts: Date.now(), tokens }`. -/
structure TokenEvent where
  ts : Nat
  tokens : Nat
  deriving DecidableEq, Repr

/-- `state.processed[id] = { processed_at, status, error }`. -/
structure ProcessedRecord where
  processed_at : Nat
  status : String
  error : String
  deriving DecidableEq, Repr

/-- `message_packet: { title, body, urgency }`. -/
structure MessagePacket where
  title : String
  body : String
  urgency : String
  deriving DecidableEq, Repr

/-- A Decision as built in `processSingleMessage`.  `trim_stats` (an
opaque metadata blob from the out-of-scope trimming collaborator) is
omitted; JS field `from` is rendered `fromAddr`. -/
structure Decision where
  id : String
  notify : Bool
  message_packet : MessagePacket
  confidence : Nat
  reason : String
  tokens : Nat
  llm_latency_ms : Nat
  gmail_link : String
  fromAddr : String
  subject : String
  decided_at : Nat
  deriving DecidableEq, Repr

/-- A SendRecord as appended by `addSend`.  The provider-specific receipt
field (`twilio_sid` / `pushover_receipt`) always equals `notification_id`
in the source, so only the latter is kept. -/
structure SendRecord where
  sent_at : Nat
  fromAddr : String
  subject : String
  urgency : String
  tokens_for_email : Nat
  reason : String
  notification_provider : String
  notification_id : String
  sms_preview : String
  gmail_link : String
  deriving DecidableEq, Repr

structure GmailStats where
  last_ok_at : Nat
  last_error : String
  last_poll_at : Nat
  deriving DecidableEq, Repr

structure LlmStats where
  last_ok_at : Nat
  last_error : String
  last_latency_ms : Nat
  avg_latency_ms : Nat
  last_health_check_at : Nat
  deriving DecidableEq, Repr

structure LlmQueueStats where
  depth : Nat
  pending : Nat
  running : Nat
  dropped_total : Nat
  last_dropped_at : Nat
  last_dropped_id : String
  max_queue : Nat
  deriving DecidableEq, Repr

/-- Shape shared by `stats.twilio` and `stats.pushover`. -/
structure ChannelStats where
  last_ok_at : Nat
  last_error : String
  startup_ok_at : Nat
  deriving DecidableEq, Repr

structure AlertsBlock where
  gmail_down_at : Nat
  gmail_last_alert_at : Nat
  llm_down_at : Nat
  llm_last_alert_at : Nat
  deriving DecidableEq, Repr

structure Stats where
  emails_processed : Nat
  llm_requests : Nat
  notifications_sent : Nat
  tokens_total_est : Nat
  last_24h_tokens_est : Nat
  gmail : GmailStats
  llm : LlmStats
  llm_queue : LlmQueueStats
  twilio : ChannelStats
  pushover : ChannelStats
  deriving DecidableEq, Repr

/-- The whole in-memory state owned by `createStateManager`.  `processed`
is a JS object keyed by message id, modelled as an association list in
insertion order (Gmail ids are non-numeric strings, so JS preserves
insertion order for them). -/
structure MailState where
  processed : List (String × ProcessedRecord)
  recent_decisions : List Decision
  recent_sends : List SendRecord
  token_events : List TokenEvent
  alerts : AlertsBlock
  stats : Stats
  deriving DecidableEq, Repr

/-- `defaultState()`. -/
def initState : MailState :=
  { processed := [], recent_decisions := [], recent_sends := [], token_events := [],
    alerts := { gmail_down_at := 0, gmail_last_alert_at := 0, llm_down_at := 0,
                llm_last_alert_at := 0 },
    stats :=
      { emails_processed := 0, llm_requests := 0, notifications_sent := 0,
        tokens_total_est := 0, last_24h_tokens_est := 0,
        gmail := { last_ok_at := 0, last_error := "", last_poll_at := 0 },
        llm := { last_ok_at := 0, last_error := "", last_latency_ms := 0,
                 avg_latency_ms := 0, last_health_check_at := 0 },
        llm_queue := { depth := 0, pending := 0, running := 0, dropped_total := 0,
                       last_dropped_at := 0, last_dropped_id := "", max_queue := 0 },
        twilio := { last_ok_at := 0, last_error := "", startup_ok_at := 0 },
        pushover := { last_ok_at := 0, last_error := "", startup_ok_at := 0 } } }

/-- JS object assignment `m[k] = v`: replace in place if the key exists,
otherwise append. -/
def objInsert (m : List (String × ProcessedRecord)) (k : String)
    (v : ProcessedRecord) : List (String × ProcessedRecord) :=
  if m.any (fun p => p.1 == k) then
    m.map (fun p => if p.1 == k then (k, v) else p)
  else m ++ [(k, v)]

/-- JS object read `m[k]` (`undefined` as `none`). -/
def lookupProcessed (m : List (String × ProcessedRecord)) (k : String) :
    Option ProcessedRecord :=
  (m.find? (fun p => p.1 == k)).map Prod.snd

/-- JS `arr.slice(-n)`: the last `n` elements — except that `slice(-0)`
is `slice(0)`, the whole array. -/
def jsSliceNeg (n : Nat) (l : List α) : List α :=
  if n = 0 then l else l.drop (l.length - n)

/-- `Math.round(n / 2)` for a non-negative integer `n` (half rounds up). -/
def jsRoundHalfDiv2 (n : Nat) : Nat :=
  (n + 1) / 2

/-- The trailing-window cutoff used by `computeLast24h`:
`Date.now() - 24 * 60 * 60 * 1000` (clamped at zero; JS would go negative,
but every timestamp is `≥ 0 ≥ cutoff` in that case, so the filters
agree). -/
def cutoff24h (now : Nat) : Nat :=
  now - 24 * 60 * 60 * 1000

/-- `computeLast24h()`: drop token events older than the trailing 24h
window and recompute the rolling total (`Math.round` of an integer sum is
the sum itself). -/
def computeLast24h (now : Nat) (st : MailState) : MailState :=
  let kept := st.token_events.filter (fun e => cutoff24h now ≤ e.ts)
  { st with
    token_events := kept,
    stats.last_24h_tokens_est := (kept.map (·.tokens)).sum }

/-- The processed-map half of `prune()`: if the map exceeds the ceiling,
stable-sort the entries by ascending `processed_at` (JS `sort` is stable)
and delete the oldest surplus keys. -/
def pruneProcessed (maxProcessedIds : Nat)
    (m : List (String × ProcessedRecord)) : List (String × ProcessedRecord) :=
  if maxProcessedIds < m.length then
    let sorted := m.mergeSort (fun a b => a.2.processed_at ≤ b.2.processed_at)
    let toDrop := (sorted.take (m.length - maxProcessedIds)).map Prod.fst
    m.filter (fun p => !(toDrop.contains p.1))
  else m

/-- Retention configuration of the store plus the notification settings
the pipeline reads (`createStateManager` arguments and
`config.notificationService` / `config.maxSmsChars`). -/
structure PipelineConfig where
  notificationService : String
  maxSmsChars : Nat
  maxProcessedIds : Nat
  recentLimit : Nat
  tokenEventLimit : Nat
  deriving DecidableEq, Repr

/-- `prune()`. -/
def prune (cfg : PipelineConfig) (st : MailState) : MailState :=
  { st with
    processed := pruneProcessed cfg.maxProcessedIds st.processed,
    recent_decisions := jsSliceNeg cfg.recentLimit st.recent_decisions,
    recent_sends := jsSliceNeg cfg.recentLimit st.recent_sends,
    token_events := jsSliceNeg cfg.tokenEventLimit st.token_events }

/-- The state transformation performed by `save()`: `prune()` then
`computeLast24h()` (the atomic write of the result is modelled at the
poll-tick level, `pollGmailTick`). -/
def saveState (cfg : PipelineConfig) (now : Nat) (st : MailState) : MailState :=
  computeLast24h now (prune cfg st)

/-- `markProcessed(id, status, error)`. -/
def markProcessed (now : Nat) (id status err : String) (st : MailState) :
    MailState :=
  { st with
    processed := objInsert st.processed id
      { processed_at := now, status := status, error := err },
    stats.emails_processed := st.stats.emails_processed + 1 }

def addDecision (d : Decision) (st : MailState) : MailState :=
  { st with recent_decisions := st.recent_decisions ++ [d] }

def addSend (r : SendRecord) (st : MailState) : MailState :=
  { st with
    recent_sends := st.recent_sends ++ [r],
    stats.notifications_sent := st.stats.notifications_sent + 1 }

/-- `addTokenEvent(tokens)` (a `Nat` is always finite, so the
`Number.isFinite` guard is the identity here). -/
def addTokenEvent (now tokens : Nat) (st : MailState) : MailState :=
  computeLast24h now
    { st with
      token_events := st.token_events ++ [{ ts := now, tokens := tokens }],
      stats.tokens_total_est := st.stats.tokens_total_est + tokens }

def bumpLLMRequests (st : MailState) : MailState :=
  { st with stats.llm_requests := st.stats.llm_requests + 1 }

def recordGmailPoll (now : Nat) (st : MailState) : MailState :=
  { st with stats.gmail.last_poll_at := now }

def revertGmailPoll (previousTimestamp : Nat) (st : MailState) : MailState :=
  { st with stats.gmail.last_poll_at := previousTimestamp }

def setGmailOk (now : Nat) (st : MailState) : MailState :=
  { st with
    stats.gmail.last_ok_at := now,
    stats.gmail.last_error := "",
    alerts.gmail_down_at := 0 }

/-- `setGmailError`: `alerts.gmail_down_at ||= Date.now()` keeps a
non-zero value. -/
def setGmailError (now : Nat) (errMsg : String) (st : MailState) : MailState :=
  { st with
    stats.gmail.last_error := errMsg,
    alerts.gmail_down_at :=
      if st.alerts.gmail_down_at = 0 then now else st.alerts.gmail_down_at }

def setLLMOk (now latencyMs : Nat) (st : MailState) : MailState :=
  let prevAvg := st.stats.llm.avg_latency_ms
  { st with
    stats.llm.last_ok_at := now,
    stats.llm.last_error := "",
    stats.llm.last_latency_ms := latencyMs,
    stats.llm.avg_latency_ms :=
      if prevAvg = 0 then latencyMs else jsRoundHalfDiv2 (prevAvg + latencyMs),
    alerts.llm_down_at := 0 }

def setLLMError (now : Nat) (errMsg : String) (st : MailState) : MailState :=
  { st with
    stats.llm.last_error := errMsg,
    alerts.llm_down_at :=
      if st.alerts.llm_down_at = 0 then now else st.alerts.llm_down_at }

/-- `setLLMHealthCheck(ok, latencyMs, errMsg)`: stamps the probe time
unconditionally, then records a success, or an error only when `errMsg`
is truthy. -/
def setLLMHealthCheck (now : Nat) (ok : Bool) (latencyMs : Nat) (errMsg : String)
    (st : MailState) : MailState :=
  let st1 := { st with stats.llm.last_health_check_at := now }
  if ok then setLLMOk now latencyMs st1
  else if errMsg ≠ "" then setLLMError now errMsg st1
  else st1

/-- The queue-stats snapshot published by `publishStats` (it does not
include `last_dropped_id`). -/
structure QueueSnapshot where
  depth : Nat
  pending : Nat
  running : Nat
  dropped_total : Nat
  last_dropped_at : Nat
  max_queue : Nat
  deriving DecidableEq, Repr

/-- `setLLMQueueStats`: object spread over the old block, so the
unpublished `last_dropped_id` survives. -/
def setLLMQueueStats (q : QueueSnapshot) (st : MailState) : MailState :=
  { st with
    stats.llm_queue :=
      { depth := q.depth, pending := q.pending, running := q.running,
        dropped_total := q.dropped_total, last_dropped_at := q.last_dropped_at,
        last_dropped_id := st.stats.llm_queue.last_dropped_id,
        max_queue := q.max_queue } }

def incrementLLMQueueDropped (now : Nat) (messageId : String) (st : MailState) :
    MailState :=
  { st with
    stats.llm_queue.dropped_total := st.stats.llm_queue.dropped_total + 1,
    stats.llm_queue.last_dropped_at := now,
    stats.llm_queue.last_dropped_id :=
      if messageId ≠ "" then messageId else st.stats.llm_queue.last_dropped_id }

def setTwilioOk (now : Nat) (st : MailState) : MailState :=
  { st with
    stats.twilio.last_ok_at := now,
    stats.twilio.startup_ok_at :=
      if st.stats.twilio.startup_ok_at = 0 then now else st.stats.twilio.startup_ok_at,
    stats.twilio.last_error := "" }

def setTwilioError (errMsg : String) (st : MailState) : MailState :=
  { st with stats.twilio.last_error := errMsg }

def setPushoverOk (now : Nat) (st : MailState) : MailState :=
  { st with
    stats.pushover.last_ok_at := now,
    stats.pushover.startup_ok_at :=
      if st.stats.pushover.startup_ok_at = 0 then now
      else st.stats.pushover.startup_ok_at,
    stats.pushover.last_error := "" }

def setPushoverError (errMsg : String) (st : MailState) : MailState :=
  { st with stats.pushover.last_error := errMsg }

def markOutageAlertSent (now : Nat) (service : String) (st : MailState) : MailState :=
  let st1 :=
    if service = "gmail" then { st with alerts.gmail_last_alert_at := now } else st
  if service = "llm" then { st1 with alerts.llm_last_alert_at := now } else st1

/-! ## Health aggregator (`buildHealth`) -/

/-- `stats.gmail.last_ok_at > 0 && now - last_ok_at <= pollIntervalMs * 2
&& !stats.gmail.last_error`. -/
def gmailHealthOk (now pollIntervalMs : Nat) (st : Stats) : Bool :=
  decide (0 < st.gmail.last_ok_at ∧ now - st.gmail.last_ok_at ≤ pollIntervalMs * 2
    ∧ st.gmail.last_error = "")

/-- `llmRecent`: a classification success within the fixed 5-minute
window. -/
def llmRecent (now : Nat) (st : Stats) : Bool :=
  decide (0 < st.llm.last_ok_at ∧ now - st.llm.last_ok_at ≤ 5 * 60 * 1000)

/-- `llmOk = (llmRecent || stats.llm.last_health_check_at) &&
!stats.llm.last_error`: a truthy (non-zero) probe timestamp suffices,
with no recency requirement on the probe. -/
def llmHealthOk (now : Nat) (st : Stats) : Bool :=
  (llmRecent now st || decide (st.llm.last_health_check_at ≠ 0))
    && decide (st.llm.last_error = "")

def twilioHealthOk (now : Nat) (st : Stats) : Bool :=
  (decide (0 < st.twilio.last_ok_at ∧ now - st.twilio.last_ok_at ≤ 24 * 60 * 60 * 1000)
      || decide (st.twilio.startup_ok_at ≠ 0))
    && decide (st.twilio.last_error = "")

def pushoverHealthOk (now : Nat) (st : Stats) : Bool :=
  (decide (0 < st.pushover.last_ok_at
        ∧ now - st.pushover.last_ok_at ≤ 24 * 60 * 60 * 1000)
      || decide (st.pushover.startup_ok_at ≠ 0))
    && decide (st.pushover.last_error = "")

/-- `notificationOk`: the configured channel's health. -/
def notificationHealthOk (service : String) (now : Nat) (st : Stats) : Bool :=
  if service = "pushover" then pushoverHealthOk now st else twilioHealthOk now st

/-- The dependencies `buildHealth` reports on. -/
inductive Dep where
  | gmail
  | llm
  | twilio
  | pushover
  deriving DecidableEq, Repr

def depError (d : Dep) (st : Stats) : String :=
  match d with
  | .gmail => st.gmail.last_error
  | .llm => st.llm.last_error
  | .twilio => st.twilio.last_error
  | .pushover => st.pushover.last_error

def depHealth (d : Dep) (now pollIntervalMs : Nat) (st : Stats) : Bool :=
  match d with
  | .gmail => gmailHealthOk now pollIntervalMs st
  | .llm => llmHealthOk now st
  | .twilio => twilioHealthOk now st
  | .pushover => pushoverHealthOk now st

/-- One narrow mutator call on the state store (the only writes the rest
of the system may perform). -/
inductive StEvent where
  | evMarkProcessed (now : Nat) (id status err : String)
  | evAddDecision (d : Decision)
  | evAddSend (r : SendRecord)
  | evAddTokenEvent (now tokens : Nat)
  | evBumpLLMRequests
  | evRecordGmailPoll (now : Nat)
  | evRevertGmailPoll (prev : Nat)
  | evSetGmailOk (now : Nat)
  | evSetGmailError (now : Nat) (msg : String)
  | evSetLLMOk (now latency : Nat)
  | evSetLLMError (now : Nat) (msg : String)
  | evSetLLMHealthCheck (now : Nat) (ok : Bool) (latency : Nat) (errMsg : String)
  | evSetLLMQueueStats (q : QueueSnapshot)
  | evIncrementLLMQueueDropped (now : Nat) (id : String)
  | evSetTwilioOk (now : Nat)
  | evSetTwilioError (msg : String)
  | evSetPushoverOk (now : Nat)
  | evSetPushoverError (msg : String)
  | evMarkOutageAlertSent (now : Nat) (service : String)
  | evSave (cfg : PipelineConfig) (now : Nat)
  deriving DecidableEq, Repr

def stStep (st : MailState) (e : StEvent) : MailState :=
  match e with
  | .evMarkProcessed now id status err => markProcessed now id status err st
  | .evAddDecision d => addDecision d st
  | .evAddSend r => addSend r st
  | .evAddTokenEvent now tokens => addTokenEvent now tokens st
  | .evBumpLLMRequests => bumpLLMRequests st
  | .evRecordGmailPoll now => recordGmailPoll now st
  | .evRevertGmailPoll prev => revertGmailPoll prev st
  | .evSetGmailOk now => setGmailOk now st
  | .evSetGmailError now msg => setGmailError now msg st
  | .evSetLLMOk now latency => setLLMOk now latency st
  | .evSetLLMError now msg => setLLMError now msg st
  | .evSetLLMHealthCheck now ok latency errMsg => setLLMHealthCheck now ok latency errMsg st
  | .evSetLLMQueueStats q => setLLMQueueStats q st
  | .evIncrementLLMQueueDropped now id => incrementLLMQueueDropped now id st
  | .evSetTwilioOk now => setTwilioOk now st
  | .evSetTwilioError msg => setTwilioError msg st
  | .evSetPushoverOk now => setPushoverOk now st
  | .evSetPushoverError msg => setPushoverError msg st
  | .evMarkOutageAlertSent now service => markOutageAlertSent now service st
  | .evSave cfg now => saveState cfg now st

/-- The success mutators for a dependency: the calls that a successful
interaction with that dependency performs. -/
def isSuccessEvent (d : Dep) (e : StEvent) : Prop :=
  match d, e with
  | .gmail, .evSetGmailOk _ => True
  | .llm, .evSetLLMOk _ _ => True
  | .llm, .evSetLLMHealthCheck _ ok _ _ => ok = true
  | .twilio, .evSetTwilioOk _ => True
  | .pushover, .evSetPushoverOk _ => True
  | _, _ => False

/-- Error mutators always carry the message of a thrown error; an empty
message would be a degenerate collaborator error.  Events satisfying this
predicate record only non-empty error details. -/
def ErrorDetailNonEmpty (e : StEvent) : Prop :=
  match e with
  | .evSetGmailError _ msg => msg ≠ ""
  | .evSetLLMError _ msg => msg ≠ ""
  | .evSetTwilioError msg => msg ≠ ""
  | .evSetPushoverError msg => msg ≠ ""
  | _ => True

/-! ## Item pipeline (`processSingleMessage`) -/

/-- The parse of a raw message, as produced by the mailbox collaborator
(`parseRawEmail`); JS field `from` is rendered `fromAddr`, and the
`attachments` array (never read by the pipeline) is omitted. -/
structure ParsedEmail where
  id : String
  threadId : String
  date : String
  fromAddr : String
  toAddr : String
  cc : String
  subject : String
  body_text : String
  deriving DecidableEq, Repr

/-- A successful classifier response (`llmRes`): the parsed JSON verdict
plus token/latency accounting. -/
structure LlmResult where
  notify : Bool
  message_packet : MessagePacket
  confidence : Nat
  reason : String
  tokens : Nat
  latencyMs : Nat
  deriving DecidableEq, Repr

/-- The synthetic Decision built in the `catch` branch when the
classifier call throws. -/
def llmFailureDecision (messageId gmailLink : String) (parsed : ParsedEmail)
    (errMsg : String) (now : Nat) : Decision :=
  { id := messageId, notify := false,
    message_packet := { title := "LLM error", body := errMsg, urgency := "normal" },
    confidence := 0, reason := "LLM failure: " ++ errMsg, tokens := 0,
    llm_latency_ms := 0, gmail_link := gmailLink, fromAddr := parsed.fromAddr,
    subject := parsed.subject, decided_at := now }

/-- The Decision built on a successful classification. -/
def llmOkDecision (messageId gmailLink : String) (parsed : ParsedEmail)
    (r : LlmResult) (now : Nat) : Decision :=
  { id := messageId, notify := r.notify, message_packet := r.message_packet,
    confidence := r.confidence, reason := r.reason, tokens := r.tokens,
    llm_latency_ms := r.latencyMs, gmail_link := gmailLink,
    fromAddr := parsed.fromAddr, subject := parsed.subject, decided_at := now }

/-- JS `s.startsWith(p)`: `p` is a prefix of `s` (stated over the
character lists, which is what both the JS method and Lean's
Substring-based `String.startsWith` compute). -/
def jsStartsWith (s p : String) : Bool :=
  p.data.isPrefixOf s.data

/-- The SMS body: `` `${packet.title || 'New mail'}` `` plus optional
urgency tag and body, truncated to `maxSmsChars` (JS `slice` counts
UTF-16 units, `String.take` counts characters; identical on the material
here). -/
def buildSmsBody (maxSmsChars : Nat) (packet : MessagePacket) : String :=
  let base := if packet.title = "" then "New mail" else packet.title
  let withUrgency :=
    if packet.urgency ≠ "" then base ++ " [" ++ packet.urgency ++ "]" else base
  let whole :=
    if packet.body ≠ "" then withUrgency ++ "\n" ++ packet.body else withUrgency
  whole.take maxSmsChars

/-- The `shouldNotify` branch of `processSingleMessage`: dispatch via the
configured channel, record send/ok or error.  The network call's outcome
is the `sendRes` argument (`.ok receipt` or `.error message`). -/
def dispatchAlert (cfg : PipelineConfig) (now : Nat) (parsed : ParsedEmail)
    (gmailLink : String) (decision : Decision) (sendRes : Except String String)
    (st : MailState) : MailState :=
  let packet := decision.message_packet
  let truncated := buildSmsBody cfg.maxSmsChars packet
  let urgency := if packet.urgency = "" then "normal" else packet.urgency
  if cfg.notificationService = "twilio" then
    match sendRes with
    | .ok sid =>
        addSend
          { sent_at := now, fromAddr := parsed.fromAddr, subject := parsed.subject,
            urgency := urgency, tokens_for_email := decision.tokens,
            reason := decision.reason, notification_provider := "twilio",
            notification_id := sid, sms_preview := truncated,
            gmail_link := gmailLink }
          (setTwilioOk now st)
    | .error e => setTwilioError e st
  else if cfg.notificationService = "pushover" then
    match sendRes with
    | .ok receipt =>
        addSend
          { sent_at := now, fromAddr := parsed.fromAddr, subject := parsed.subject,
            urgency := urgency, tokens_for_email := decision.tokens,
            reason := decision.reason, notification_provider := "pushover",
            notification_id := receipt, sms_preview := truncated,
            gmail_link := gmailLink }
          (setPushoverOk now st)
    | .error e => setPushoverError e st
  else
    let msg := "Notification service not recognized: " ++ cfg.notificationService
    setPushoverError msg (setTwilioError msg st)

/-- The tail of `processSingleMessage` after the decision exists: record
the decision, optionally dispatch, mark the terminal status (`error` iff
the reason starts with `LLM failure`), and `save()`. -/
def finishDecision (cfg : PipelineConfig) (now : Nat) (messageId : String)
    (parsed : ParsedEmail) (gmailLink : String) (decision : Decision)
    (sendRes : Except String String) (st : MailState) : MailState :=
  let st1 := addDecision decision st
  let st2 :=
    if decision.notify then dispatchAlert cfg now parsed gmailLink decision sendRes st1
    else st1
  let status := if jsStartsWith decision.reason "LLM failure" then "error" else "ok"
  saveState cfg now (markProcessed now messageId status decision.reason st2)

/-- `processSingleMessage`.  The suspension points (fetch+parse, the
classifier call, the alert send) are modelled by their outcomes:
`fetchParse` covers `fetchRawMessage`/`parseRawEmail` (whose failure hits
the outer catch), `llmRes` the `ctx.callLLM` call, `sendRes` the alert
channel.  `gmailLink` abstracts `gmailLinkFor(parsed)` (an out-of-scope
collaborator); the trimming collaborator only shapes the classifier input
and `trim_stats`, so it does not appear. -/
def processSingleMessage (cfg : PipelineConfig) (now : Nat)
    (messageId : String) (fetchParse : Except String ParsedEmail)
    (gmailLink : String) (llmRes : Except String LlmResult)
    (sendRes : Except String String) (st : MailState) : MailState :=
  if (lookupProcessed st.processed messageId).isSome then st
  else
    match fetchParse with
    | .error e => saveState cfg now (markProcessed now messageId "error" e st)
    | .ok parsed =>
        let st1 := bumpLLMRequests st
        match llmRes with
        | .ok r =>
            let st2 := setLLMOk now r.latencyMs (addTokenEvent now r.tokens st1)
            finishDecision cfg now messageId parsed gmailLink
              (llmOkDecision messageId gmailLink parsed r now) sendRes st2
        | .error e =>
            let st2 := setLLMError now e st1
            finishDecision cfg now messageId parsed gmailLink
              (llmFailureDecision messageId gmailLink parsed e now) sendRes st2

/-! ## Poll orchestrator (`pollGmail`) -/

/-- The orchestration context slice `pollGmail` touches, plus the ghost
`persisted` field standing for the last snapshot `save()` managed to
write. -/
structure PollCtx where
  pollLock : Bool
  st : MailState
  persisted : Option MailState
  deriving DecidableEq, Repr

/-- One `pollGmail` tick.  `listResult` is the outcome of the guarded
`listMessages` call; `saveOk` says whether the `save()` in the `finally`
block succeeds (its only failure mode is the disk write).  Returns the
new context and the ids handed to `llmQueue.enqueue`, in order.  When the
re-entrancy lock is held the tick is a no-op.  Note the `finally` block
`await`s `save()` before clearing the lock, so a failing save leaves the
lock held. -/
def pollGmailTick (cfg : PipelineConfig) (now : Nat) (ctx : PollCtx)
    (listResult : Except String (List String)) (saveOk : Bool) :
    PollCtx × List String :=
  if ctx.pollLock then (ctx, [])
  else
    let previousPollAt := ctx.st.stats.gmail.last_poll_at
    let st1 := recordGmailPoll now ctx.st
    let bodyDone : MailState × List String :=
      match listResult with
      | .ok msgIds =>
          let stOk := setGmailOk now st1
          (stOk, msgIds.filter (fun m => (lookupProcessed stOk.processed m).isNone))
      | .error e => (setGmailError now e (revertGmailPoll previousPollAt st1), [])
    if saveOk then
      let saved := saveState cfg now bodyDone.1
      ({ pollLock := false, st := saved, persisted := some saved }, bodyDone.2)
    else
      ({ pollLock := true, st := bodyDone.1, persisted := ctx.persisted }, bodyDone.2)

/-! ### Basic facts about the queue loops -/

theorem dropOldest_runningKeys (now : Nat) (s : QueueState) :
    (dropOldest now s).runningKeys = s.runningKeys := by
  unfold dropOldest
  cases s.pending <;> rfl

theorem dropOldest_clock (now : Nat) (s : QueueState) :
    (dropOldest now s).clock = s.clock := by
  unfold dropOldest
  cases s.pending <;> rfl

theorem dropOldest_pending (now : Nat) (s : QueueState) (d : LlmTask × Nat)
    (rest : List (LlmTask × Nat)) (h : s.pending = d :: rest) :
    (dropOldest now s).pending = rest := by
  unfold dropOldest
  rw [h]

/-- With fuel `s.pending.length` the fuelled loop already reaches the real
exit condition of the source's `while`: extra fuel changes nothing. -/
theorem enforceLoop_fuel_stable (maxQueue now : Nat) :
    ∀ fuel s, s.pending.length ≤ fuel →
      enforceLoop maxQueue now (fuel + 1) s = enforceLoop maxQueue now fuel s := by
  intro fuel
  induction fuel with
  | zero =>
      intro s hs
      have hp : s.pending = [] := List.length_eq_zero.mp (Nat.le_zero.mp hs)
      simp [enforceLoop, hp]
  | succ fuel ih =>
      intro s hs
      by_cases h : 0 < maxQueue ∧ maxQueue < depth s ∧ s.pending ≠ []
      · have hlen : (dropOldest now s).pending.length ≤ fuel := by
          obtain ⟨-, -, hne⟩ := h
          cases hp : s.pending with
          | nil => exact absurd hp hne
          | cons d rest =>
              rw [dropOldest_pending now s d rest hp]
              have hs2 := hs
              rw [hp] at hs2
              simp only [List.length_cons] at hs2
              omega
        have hL : enforceLoop maxQueue now (fuel + 1 + 1) s
            = enforceLoop maxQueue now (fuel + 1) (dropOldest now s) := by
          rw [enforceLoop]
          exact if_pos h
        have hR : enforceLoop maxQueue now (fuel + 1) s
            = enforceLoop maxQueue now fuel (dropOldest now s) := by
          rw [enforceLoop]
          exact if_pos h
        rw [hL, hR]
        exact ih _ hlen
      · have hL : enforceLoop maxQueue now (fuel + 1 + 1) s = s := by
          rw [enforceLoop]
          exact if_neg h
        have hR : enforceLoop maxQueue now (fuel + 1) s = s := by
          rw [enforceLoop]
          exact if_neg h
        rw [hL, hR]

theorem enforceLoop_runningKeys (maxQueue now : Nat) :
    ∀ fuel s, (enforceLoop maxQueue now fuel s).runningKeys = s.runningKeys := by
  intro fuel
  induction fuel with
  | zero => intro s; rfl
  | succ fuel ih =>
      intro s
      rw [enforceLoop]
      by_cases h : 0 < maxQueue ∧ maxQueue < depth s ∧ s.pending ≠ []
      · rw [if_pos h, ih, dropOldest_runningKeys]
      · rw [if_neg h]

theorem runningKeys_le_depth (s : QueueState) :
    s.runningKeys.length ≤ depth s :=
  Nat.le_add_left _ _

/-- After the capacity loop runs out (with enough fuel), the depth is at
most `max maxQueue running`: the loop stops either because the bound holds
or because `pending` is empty, in which case the depth is the running
count. -/
theorem enforceLoop_depth_le (maxQueue now : Nat) (hq : 1 ≤ maxQueue) :
    ∀ fuel s, s.pending.length ≤ fuel →
      depth (enforceLoop maxQueue now fuel s) ≤ Nat.max maxQueue s.runningKeys.length := by
  intro fuel
  induction fuel with
  | zero =>
      intro s hs
      have hp : s.pending = [] := List.length_eq_zero.mp (Nat.le_zero.mp hs)
      have hd : depth s = s.runningKeys.length := by simp [depth, hp]
      simp [enforceLoop, hd]
  | succ fuel ih =>
      intro s hs
      rw [enforceLoop]
      by_cases h : 0 < maxQueue ∧ maxQueue < depth s ∧ s.pending ≠ []
      · rw [if_pos h]
        obtain ⟨-, -, hne⟩ := h
        have hlen : (dropOldest now s).pending.length ≤ fuel := by
          cases hp : s.pending with
          | nil => exact absurd hp hne
          | cons d rest =>
              rw [dropOldest_pending now s d rest hp]
              have hs2 := hs
              rw [hp] at hs2
              simp only [List.length_cons] at hs2
              omega
        have hlast := ih (dropOldest now s) hlen
        rwa [dropOldest_runningKeys] at hlast
      · rw [if_neg h]
        rcases Decidable.not_and_iff_or_not.mp h with h1 | h23
        · omega
        rcases Decidable.not_and_iff_or_not.mp h23 with h2 | h3
        · exact Nat.le_trans (Nat.le_of_not_lt h2) (Nat.le_max_left _ _)
        · have hp : s.pending = [] := by
            by_contra hne
            exact h3 hne
          have hd : depth s = s.runningKeys.length := by simp [depth, hp]
          rw [hd]
          exact Nat.le_max_right _ _

theorem enforceCapacity_depth_le (maxQueue now : Nat) (hq : 1 ≤ maxQueue)
    (s : QueueState) :
    depth (enforceCapacity maxQueue now s) ≤ Nat.max maxQueue s.runningKeys.length :=
  enforceLoop_depth_le maxQueue now hq s.pending.length s (Nat.le_refl _)

theorem addRunningKey_length_le (keys : List (Option String)) (k : Option String) :
    (addRunningKey keys k).length ≤ keys.length + 1 := by
  unfold addRunningKey
  cases k with
  | some i =>
      by_cases h : some i ∈ keys
      · simp [h]
      · simp [h]
  | none => simp

/-- Pumping never increases the depth (moving a task from `pending` to
`runningKeys` preserves it; a pathological duplicate key would even shrink
it). -/
theorem pumpLoop_depth_le (maxConcurrency : Nat) :
    ∀ fuel s, depth (pumpLoop maxConcurrency fuel s) ≤ depth s := by
  intro fuel
  induction fuel with
  | zero => intro s; exact Nat.le_refl _
  | succ fuel ih =>
      intro s
      rw [pumpLoop]
      cases hp : s.pending with
      | nil => exact Nat.le_refl _
      | cons t rest =>
          by_cases h : s.runningKeys.length < maxConcurrency
          · simp only [h, if_true]
            refine Nat.le_trans (ih _) ?_
            simp only [depth]
            have := addRunningKey_length_le s.runningKeys
              (if t.1.id ≠ "" then some t.1.id else none)
            have hlen : s.pending.length = rest.length + 1 := by simp [hp]
            omega
          · simp only [h, if_false]
            exact Nat.le_refl _

theorem pump_depth_le (maxConcurrency : Nat) (s : QueueState) :
    depth (pump maxConcurrency s) ≤ depth s :=
  pumpLoop_depth_le maxConcurrency s.pending.length s

/-- One queue event preserves the capacity bound (for a positive bound). -/
theorem qstep_depth_le (maxQueue maxConcurrency : Nat) (hq : 1 ≤ maxQueue)
    (s : QueueState) (e : QEvent) (hs : depth s ≤ maxQueue) :
    depth (qstep maxQueue maxConcurrency s e) ≤ maxQueue := by
  cases e with
  | enq now t =>
      simp only [qstep, enqueue]
      by_cases hdup : t.id ≠ "" ∧ (t.id ∈ s.pendingIds ∨ some t.id ∈ s.runningKeys)
      · rw [if_pos hdup]
        exact hs
      · rw [if_neg hdup]
        set s1 : QueueState :=
          { s with
            pending := s.pending ++ [(t, s.clock)],
            pendingIds := if t.id ≠ "" then s.pendingIds ++ [t.id] else s.pendingIds,
            clock := s.clock + 1 } with hs1
        have hrun : s1.runningKeys = s.runningKeys := rfl
        have h1 : depth (enforceCapacity maxQueue now s1) ≤
            Nat.max maxQueue s1.runningKeys.length :=
          enforceCapacity_depth_le maxQueue now hq s1
        have h2 : s1.runningKeys.length ≤ maxQueue := by
          rw [hrun]
          exact Nat.le_trans (runningKeys_le_depth s) hs
        have h3 : Nat.max maxQueue s1.runningKeys.length = maxQueue :=
          Nat.max_eq_left h2
        exact Nat.le_trans (pump_depth_le _ _) (by rw [h3] at h1; exact h1)
  | fin k =>
      simp only [qstep]
      refine Nat.le_trans (pump_depth_le _ _) ?_
      refine Nat.le_trans ?_ hs
      simp only [depth]
      have := (List.erase_sublist k s.runningKeys).length_le
      omega

/-! ### FIFO ordering of the pending list -/

theorem dropOldest_drops (now : Nat) (s : QueueState) (d : LlmTask × Nat)
    (rest : List (LlmTask × Nat)) (h : s.pending = d :: rest) :
    (dropOldest now s).drops = s.drops ++ [d] := by
  unfold dropOldest
  rw [h]

theorem dropOldest_pending_suffix (now : Nat) (s : QueueState) :
    (dropOldest now s).pending <:+ s.pending := by
  unfold dropOldest
  cases hp : s.pending with
  | nil =>
      dsimp only
      rw [hp]
  | cons d rest =>
      dsimp only
      exact List.suffix_cons d rest

theorem enforceLoop_pending_suffix (maxQueue now : Nat) :
    ∀ fuel s, (enforceLoop maxQueue now fuel s).pending <:+ s.pending := by
  intro fuel
  induction fuel with
  | zero => intro s; exact List.suffix_refl _
  | succ fuel ih =>
      intro s
      rw [enforceLoop]
      by_cases h : 0 < maxQueue ∧ maxQueue < depth s ∧ s.pending ≠ []
      · rw [if_pos h]
        exact (ih _).trans (dropOldest_pending_suffix now s)
      · rw [if_neg h]

theorem enforceLoop_clock (maxQueue now : Nat) :
    ∀ fuel s, (enforceLoop maxQueue now fuel s).clock = s.clock := by
  intro fuel
  induction fuel with
  | zero => intro s; rfl
  | succ fuel ih =>
      intro s
      rw [enforceLoop]
      by_cases h : 0 < maxQueue ∧ maxQueue < depth s ∧ s.pending ≠ []
      · rw [if_pos h, ih, dropOldest_clock]
      · rw [if_neg h]

theorem pumpLoop_pending_suffix (maxConcurrency : Nat) :
    ∀ fuel s, (pumpLoop maxConcurrency fuel s).pending <:+ s.pending := by
  intro fuel
  induction fuel with
  | zero => intro s; exact List.suffix_refl _
  | succ fuel ih =>
      intro s
      rw [pumpLoop]
      cases hp : s.pending with
      | nil =>
          dsimp only
          rw [hp]
      | cons t rest =>
          dsimp only
          by_cases h : s.runningKeys.length < maxConcurrency
          · rw [if_pos h]
            refine (ih _).trans ?_
            exact List.suffix_cons t rest
          · rw [if_neg h]
            rw [hp]

theorem pumpLoop_clock (maxConcurrency : Nat) :
    ∀ fuel s, (pumpLoop maxConcurrency fuel s).clock = s.clock := by
  intro fuel
  induction fuel with
  | zero => intro s; rfl
  | succ fuel ih =>
      intro s
      rw [pumpLoop]
      cases hp : s.pending with
      | nil => dsimp only
      | cons t rest =>
          dsimp only
          by_cases h : s.runningKeys.length < maxConcurrency
          · rw [if_pos h, ih]
          · rw [if_neg h]

theorem pendingOrdered_mono {s t : QueueState} (h : PendingOrdered s)
    (hsuf : t.pending <:+ s.pending) (hclock : t.clock = s.clock) :
    PendingOrdered t := by
  refine ⟨?_, ?_⟩
  · exact List.Pairwise.sublist ((hsuf.map Prod.snd).sublist) h.1
  · intro x hx
    rw [hclock]
    exact h.2 x (hsuf.subset hx)

theorem qstep_pendingOrdered (maxQueue maxConcurrency : Nat) (s : QueueState)
    (e : QEvent) (h : PendingOrdered s) :
    PendingOrdered (qstep maxQueue maxConcurrency s e) := by
  cases e with
  | enq now t =>
      simp only [qstep, enqueue]
      by_cases hdup : t.id ≠ "" ∧ (t.id ∈ s.pendingIds ∨ some t.id ∈ s.runningKeys)
      · rw [if_pos hdup]
        exact h
      · rw [if_neg hdup]
        set s1 : QueueState :=
          { s with
            pending := s.pending ++ [(t, s.clock)],
            pendingIds := if t.id ≠ "" then s.pendingIds ++ [t.id] else s.pendingIds,
            clock := s.clock + 1 } with hs1
        have h1 : PendingOrdered s1 := by
          constructor
          · show List.Pairwise (· ≤ ·) ((s.pending ++ [(t, s.clock)]).map Prod.snd)
            rw [List.map_append]
            rw [List.pairwise_append]
            refine ⟨h.1, by simp, ?_⟩
            intro a ha b hb
            simp only [List.map_cons, List.map_nil, List.mem_singleton] at hb
            subst hb
            obtain ⟨x, hx, rfl⟩ := List.mem_map.mp ha
            exact Nat.le_of_lt (h.2 x hx)
          · show ∀ x ∈ s.pending ++ [(t, s.clock)], x.2 < s.clock + 1
            intro x hx
            rcases List.mem_append.mp hx with hx | hx
            · exact Nat.lt_succ_of_lt (h.2 x hx)
            · simp only [List.mem_singleton] at hx
              subst hx
              exact Nat.lt_succ_self _
        have h2 : PendingOrdered (enforceCapacity maxQueue now s1) :=
          pendingOrdered_mono h1
            (enforceLoop_pending_suffix maxQueue now s1.pending.length s1)
            (enforceLoop_clock maxQueue now s1.pending.length s1)
        exact pendingOrdered_mono h2
          (pumpLoop_pending_suffix maxConcurrency _ _)
          (pumpLoop_clock maxConcurrency _ _)
  | fin k =>
      simp only [qstep]
      set s1 : QueueState := { s with runningKeys := s.runningKeys.erase k } with hs1
      have h1 : PendingOrdered s1 := ⟨h.1, h.2⟩
      exact pendingOrdered_mono h1
        (pumpLoop_pending_suffix maxConcurrency _ _)
        (pumpLoop_clock maxConcurrency _ _)

theorem runQ_pendingOrdered (maxQueue maxConcurrency : Nat) (es : List QEvent) :
    PendingOrdered (runQ maxQueue maxConcurrency es) := by
  induction es using List.reverseRecOn with
  | nil => exact ⟨List.Pairwise.nil, by simp [runQ, initQueue]⟩
  | append_singleton es e ih =>
      rw [runQ, List.foldl_append]
      simp only [List.foldl_cons, List.foldl_nil]
      exact qstep_pendingOrdered _ _ _ e ih

/-! ### Claim theorems: bounded queue -/

/-- C1 (amended): with any configured maximum queue size of at least 1
and any configured worker concurrency, after every queue event — in
particular immediately after every enqueue call returns — the number of
pending items plus the number of running items is at most the configured
maximum.  (With a configured maximum of 0 the `maxQueue > 0` guard
disables capacity enforcement entirely; see the counterexample.) -/
theorem C1_pending_plus_running_le_maxQueue
    (maxQueue maxConcurrency : Nat) (hq : 1 ≤ maxQueue) (es : List QEvent) :
    (runQ maxQueue maxConcurrency es).pending.length
      + (runQ maxQueue maxConcurrency es).runningKeys.length ≤ maxQueue := by
  have h : depth (runQ maxQueue maxConcurrency es) ≤ maxQueue := by
    induction es using List.reverseRecOn with
    | nil => simp [runQ, initQueue, depth]
    | append_singleton es e ih =>
        rw [runQ, List.foldl_append]
        simp only [List.foldl_cons, List.foldl_nil]
        exact qstep_depth_le _ _ hq _ e ih
  exact h

/-- Witness for C1 at `maxQueue = 2`, `maxConcurrency = 1`, three
enqueues. -/
theorem C1_pending_plus_running_le_maxQueue_witness :
    (runQ 2 1 [QEvent.enq 0 ⟨"A"⟩, QEvent.enq 1 ⟨"B"⟩,
        QEvent.enq 2 ⟨"C"⟩]).pending.length
      + (runQ 2 1 [QEvent.enq 0 ⟨"A"⟩, QEvent.enq 1 ⟨"B"⟩,
        QEvent.enq 2 ⟨"C"⟩]).runningKeys.length ≤ 2 :=
  C1_pending_plus_running_le_maxQueue 2 1 (by decide)
    [QEvent.enq 0 ⟨"A"⟩, QEvent.enq 1 ⟨"B"⟩, QEvent.enq 2 ⟨"C"⟩]

/-- C1 fails as stated for the configured maximum queue size 0
(`MAX_LLM_QUEUE=0` parses to 0 with no validation): one enqueue leaves
`pending + running = 1 > 0`. -/
theorem C1_counterexample :
    (runQ 0 3 [QEvent.enq 5 ⟨"A"⟩]).pending.length
        + (runQ 0 3 [QEvent.enq 5 ⟨"A"⟩]).runningKeys.length = 1
      ∧ ¬((runQ 0 3 [QEvent.enq 5 ⟨"A"⟩]).pending.length
        + (runQ 0 3 [QEvent.enq 5 ⟨"A"⟩]).runningKeys.length ≤ 0) := by
  decide

/-- C5: whenever eviction occurs the evicted item is the head of the
pending FIFO, whose ghost enqueue stamp is minimal among all currently
pending items; and the concrete `maxQueue = 2`, zero-concurrency scenario
enqueueing A, B, C evicts exactly A, leaving pending `[B, C]`, the drop
counter at 1, A as the dropped entry handed to `onDrop`, and — through
the `onDrop` wiring `incrementLLMQueueDropped` — the stats block records
one cumulative drop with dropped-id `A`. -/
theorem C5_eviction_takes_earliest_pending :
    (∀ maxQueue maxConcurrency now : Nat, ∀ es : List QEvent,
      ∀ d : LlmTask × Nat, ∀ rest : List (LlmTask × Nat),
        (runQ maxQueue maxConcurrency es).pending = d :: rest →
          (dropOldest now (runQ maxQueue maxConcurrency es)).drops
              = (runQ maxQueue maxConcurrency es).drops ++ [d]
            ∧ ∀ x ∈ (runQ maxQueue maxConcurrency es).pending, d.2 ≤ x.2)
    ∧ ((runQ 2 0 [QEvent.enq 10 ⟨"A"⟩, QEvent.enq 11 ⟨"B"⟩,
          QEvent.enq 12 ⟨"C"⟩]).pending.map (fun x => x.1.id) = ["B", "C"]
      ∧ (runQ 2 0 [QEvent.enq 10 ⟨"A"⟩, QEvent.enq 11 ⟨"B"⟩,
          QEvent.enq 12 ⟨"C"⟩]).droppedTotal = 1
      ∧ (runQ 2 0 [QEvent.enq 10 ⟨"A"⟩, QEvent.enq 11 ⟨"B"⟩,
          QEvent.enq 12 ⟨"C"⟩]).drops.map (fun x => x.1.id) = ["A"]
      ∧ (incrementLLMQueueDropped 12 "A" initState).stats.llm_queue.dropped_total = 1
      ∧ (incrementLLMQueueDropped 12 "A" initState).stats.llm_queue.last_dropped_id
          = "A") := by
  constructor
  · intro maxQueue maxConcurrency now es d rest hpend
    refine ⟨dropOldest_drops now _ d rest hpend, ?_⟩
    have hord := runQ_pendingOrdered maxQueue maxConcurrency es
    have hpair := hord.1
    rw [hpend] at hpair
    simp only [List.map_cons] at hpair
    intro x hx
    rw [hpend] at hx
    rcases List.mem_cons.mp hx with rfl | hx
    · exact Nat.le_refl _
    · exact List.rel_of_pairwise_cons hpair (List.mem_map_of_mem Prod.snd hx)
  · decide

/-- Witness for C5's universal part: after enqueueing A then B, the
pending head is A with the minimal stamp, and `dropOldest` hands exactly
A to `onDrop`. -/
theorem C5_eviction_takes_earliest_pending_witness :
    (dropOldest 7 (runQ 3 0 [QEvent.enq 0 ⟨"A"⟩, QEvent.enq 1 ⟨"B"⟩])).drops
        = (runQ 3 0 [QEvent.enq 0 ⟨"A"⟩, QEvent.enq 1 ⟨"B"⟩]).drops
            ++ [(⟨"A"⟩, 0)]
      ∧ ∀ x ∈ (runQ 3 0 [QEvent.enq 0 ⟨"A"⟩, QEvent.enq 1 ⟨"B"⟩]).pending,
          ((⟨"A"⟩, 0) : LlmTask × Nat).2 ≤ x.2 :=
  C5_eviction_takes_earliest_pending.1 3 0 7
    [QEvent.enq 0 ⟨"A"⟩, QEvent.enq 1 ⟨"B"⟩] (⟨"A"⟩, 0) [(⟨"B"⟩, 1)] (by decide)

/-! ### Duplicate suppression and the processed map (C6) -/

theorem mapReplace_of_no_key (k : String) (v : ProcessedRecord)
    (l : List (String × ProcessedRecord)) (h : ∀ q ∈ l, (q.1 == k) = false) :
    l.map (fun p => if p.1 == k then (k, v) else p) = l := by
  induction l with
  | nil => rfl
  | cons p rest ih =>
      simp only [List.map_cons]
      rw [h p (List.mem_cons_self p rest)]
      simp only [Bool.false_eq_true, if_false]
      rw [ih fun q hq => h q (List.mem_cons_of_mem p hq)]

theorem filter_key_eq_nil (k : String) (l : List (String × ProcessedRecord))
    (h : ∀ q ∈ l, (q.1 == k) = false) :
    l.filter (fun p => p.1 == k) = [] := by
  rw [List.filter_eq_nil_iff]
  intro q hq
  rw [h q hq]
  exact Bool.false_ne_true

/-- JS object assignment leaves exactly one entry under the assigned key
(provided the map's keys are distinct, which object semantics guarantee). -/
theorem countKey_objInsert (m : List (String × ProcessedRecord)) (k : String)
    (v : ProcessedRecord) (h : (m.map Prod.fst).Nodup) :
    ((objInsert m k v).filter (fun p => p.1 == k)).length = 1 := by
  induction m with
  | nil => simp [objInsert]
  | cons p rest ih =>
      rw [List.map_cons] at h
      by_cases hp : (p.1 == k) = true
      · have hk : p.1 = k := by simpa using hp
        have hnotin : ∀ q ∈ rest, (q.1 == k) = false := by
          intro q hq
          have hne : q.1 ≠ p.1 := by
            have := (List.nodup_cons.mp h).1
            intro hcontra
            exact this (hcontra ▸ List.mem_map_of_mem Prod.fst hq)
          simp [hk ▸ hne]
        have hany : ((p :: rest).any (fun q => q.1 == k)) = true := by
          simp [List.any_cons, hp]
        simp only [objInsert, hany, if_true, List.map_cons, hp, if_pos]
        rw [mapReplace_of_no_key k v rest hnotin]
        rw [List.filter_cons]
        simp only [beq_self_eq_true, if_pos]
        rw [filter_key_eq_nil k rest hnotin]
        rfl
      · have hpf : (p.1 == k) = false := by
          simpa using hp
        have hnodup : (rest.map Prod.fst).Nodup := (List.nodup_cons.mp h).2
        by_cases hany : (rest.any (fun q => q.1 == k)) = true
        · have hanyc : ((p :: rest).any (fun q => q.1 == k)) = true := by
            simp [List.any_cons, hany]
          have hrest := ih hnodup
          simp only [objInsert, hany, if_true] at hrest
          simp only [objInsert, hanyc, if_true, List.map_cons, hpf,
            Bool.false_eq_true, if_false]
          rw [List.filter_cons]
          simp only [hpf, Bool.false_eq_true, if_false]
          exact hrest
        · have hanyf : (rest.any (fun q => q.1 == k)) = false :=
            Bool.eq_false_iff.mpr hany
          have hanyc : ((p :: rest).any (fun q => q.1 == k)) = false := by
            simp [List.any_cons, hpf, hanyf]
          have hrest := ih hnodup
          simp only [objInsert, hanyf, Bool.false_eq_true, if_false] at hrest
          simp only [objInsert, hanyc, Bool.false_eq_true, if_false, List.cons_append]
          rw [List.filter_cons]
          simp only [hpf, Bool.false_eq_true, if_false]
          exact hrest

/-- C6: an enqueue whose identifier is already pending or running is a
rejected no-op — the state is returned unchanged with
`{ enqueued: false }` — and marking an identifier processed leaves
exactly one ProcessedRecord under that identifier in the processed map. -/
theorem C6_duplicate_enqueue_noop_single_record
    (maxQueue maxConcurrency now : Nat) (s : QueueState) (t : LlmTask)
    (hid : t.id ≠ "") (hdup : t.id ∈ s.pendingIds ∨ some t.id ∈ s.runningKeys)
    (nowp : Nat) (id status err : String) (st : MailState)
    (hkeys : (st.processed.map Prod.fst).Nodup) :
    enqueue maxQueue maxConcurrency now s t = (s, false)
      ∧ ((markProcessed nowp id status err st).processed.filter
          (fun p => p.1 == id)).length = 1 := by
  constructor
  · unfold enqueue
    rw [if_pos ⟨hid, hdup⟩]
  · exact countKey_objInsert st.processed id _ hkeys

/-- Witness for C6: "A" is already pending, so re-enqueueing it is a
no-op; marking "A" processed on the fresh store leaves one record. -/
theorem C6_duplicate_enqueue_noop_single_record_witness :
    enqueue 2 0 1 (runQ 2 0 [QEvent.enq 0 ⟨"A"⟩]) ⟨"A"⟩
        = (runQ 2 0 [QEvent.enq 0 ⟨"A"⟩], false)
      ∧ ((markProcessed 5 "A" "ok" "" initState).processed.filter
          (fun p => p.1 == "A")).length = 1 :=
  C6_duplicate_enqueue_noop_single_record 2 0 1 (runQ 2 0 [QEvent.enq 0 ⟨"A"⟩])
    ⟨"A"⟩ (by decide) (by decide) 5 "A" "ok" "" initState (by decide)

/-! ### Claim theorems: poll orchestrator (C3, C4) -/

/-- C3: when the mailbox list query throws during a (non-reentrant) poll
tick, the stored watermark `stats.gmail.last_poll_at` is rolled back to
its pre-tick value, the Gmail error state is recorded
(`stats.gmail.last_error` holds the failure message and
`alerts.gmail_down_at` is stamped if it was clear), and the tick hands
nothing to the queue — whether or not the exit-path save succeeds. -/
theorem C3_poll_failure_rolls_back_watermark (cfg : PipelineConfig) (now : Nat)
    (ctx : PollCtx) (e : String) (saveOk : Bool) (hlock : ctx.pollLock = false) :
    ((pollGmailTick cfg now ctx (.error e) saveOk).1).st.stats.gmail.last_poll_at
        = ctx.st.stats.gmail.last_poll_at
      ∧ ((pollGmailTick cfg now ctx (.error e) saveOk).1).st.stats.gmail.last_error = e
      ∧ ((pollGmailTick cfg now ctx (.error e) saveOk).1).st.alerts.gmail_down_at
          = (if ctx.st.alerts.gmail_down_at = 0 then now else ctx.st.alerts.gmail_down_at)
      ∧ (pollGmailTick cfg now ctx (.error e) saveOk).2 = [] := by
  cases saveOk with
  | false =>
      refine ⟨?_, ?_, ?_, ?_⟩ <;>
        simp [pollGmailTick, hlock, setGmailError, revertGmailPoll, recordGmailPoll]
  | true =>
      refine ⟨?_, ?_, ?_, ?_⟩ <;>
        simp [pollGmailTick, hlock, saveState, computeLast24h, prune, setGmailError,
          revertGmailPoll, recordGmailPoll]

/-- Witness for C3 on a concrete context with a non-zero pre-tick
watermark. -/
theorem C3_poll_failure_rolls_back_watermark_witness :
    (let ctx : PollCtx :=
      { pollLock := false,
        st := recordGmailPoll 77 initState,
        persisted := none }
     ((pollGmailTick ⟨"pushover", 550, 5000, 50, 5000⟩ 1000 ctx
          (.error "socket hang up") true).1).st.stats.gmail.last_poll_at = 77
      ∧ ((pollGmailTick ⟨"pushover", 550, 5000, 50, 5000⟩ 1000 ctx
          (.error "socket hang up") true).1).st.stats.gmail.last_error
          = "socket hang up"
      ∧ (pollGmailTick ⟨"pushover", 550, 5000, 50, 5000⟩ 1000 ctx
          (.error "socket hang up") true).2 = []) := by
  have h := C3_poll_failure_rolls_back_watermark ⟨"pushover", 550, 5000, 50, 5000⟩
    1000
    { pollLock := false, st := recordGmailPoll 77 initState, persisted := none }
    "socket hang up" true rfl
  exact ⟨h.1, h.2.1, h.2.2.2⟩

/-- C4 (amended): at the end of every tick whose exit-path `save()`
succeeds — the tick body itself succeeding or throwing — the in-memory
state is persisted and the re-entrancy lock is released.  (If that save
itself throws, the lock stays held; see the counterexample.) -/
theorem C4_tick_exit_saves_and_releases_lock (cfg : PipelineConfig) (now : Nat)
    (ctx : PollCtx) (listResult : Except String (List String))
    (hlock : ctx.pollLock = false) :
    ((pollGmailTick cfg now ctx listResult true).1).pollLock = false
      ∧ ((pollGmailTick cfg now ctx listResult true).1).persisted
          = some ((pollGmailTick cfg now ctx listResult true).1).st := by
  cases listResult with
  | ok msgs => exact ⟨by simp [pollGmailTick, hlock], by simp [pollGmailTick, hlock]⟩
  | error e => exact ⟨by simp [pollGmailTick, hlock], by simp [pollGmailTick, hlock]⟩

/-- Witness for C4 on a concrete failing tick body. -/
theorem C4_tick_exit_saves_and_releases_lock_witness :
    ((pollGmailTick ⟨"pushover", 550, 5000, 50, 5000⟩ 1000
          { pollLock := false, st := initState, persisted := none }
          (.error "timeout") true).1).pollLock = false
      ∧ ((pollGmailTick ⟨"pushover", 550, 5000, 50, 5000⟩ 1000
          { pollLock := false, st := initState, persisted := none }
          (.error "timeout") true).1).persisted
          = some ((pollGmailTick ⟨"pushover", 550, 5000, 50, 5000⟩ 1000
          { pollLock := false, st := initState, persisted := none }
          (.error "timeout") true).1).st :=
  C4_tick_exit_saves_and_releases_lock ⟨"pushover", 550, 5000, 50, 5000⟩ 1000
    { pollLock := false, st := initState, persisted := none } (.error "timeout") rfl

/-! ### Claim theorems: item pipeline on classifier failure (C2) -/

theorem lookup_none_any_false (m : List (String × ProcessedRecord)) (k : String)
    (h : lookupProcessed m k = none) : m.any (fun p => p.1 == k) = false := by
  rw [lookupProcessed, Option.map_eq_none'] at h
  rw [List.find?_eq_none] at h
  rw [List.any_eq_false]
  intro p hp
  simpa using h p hp

theorem objInsert_append (m : List (String × ProcessedRecord)) (k : String)
    (v : ProcessedRecord) (h : m.any (fun p => p.1 == k) = false) :
    objInsert m k v = m ++ [(k, v)] := by
  rw [objInsert, h]
  simp

theorem lookup_append_self (m : List (String × ProcessedRecord)) (k : String)
    (v : ProcessedRecord) (h : m.any (fun p => p.1 == k) = false) :
    lookupProcessed (m ++ [(k, v)]) k = some v := by
  induction m with
  | nil => simp [lookupProcessed]
  | cons p rest ih =>
      rw [List.any_cons] at h
      have h1 : (p.1 == k) = false := by
        cases hc : (p.1 == k) <;> simp_all
      have h2 : rest.any (fun q => q.1 == k) = false := by
        cases hc : rest.any (fun q => q.1 == k) <;> simp_all
      rw [List.cons_append, lookupProcessed, List.find?_cons]
      rw [h1]
      exact ih h2

theorem pruneProcessed_of_le (maxIds : Nat) (m : List (String × ProcessedRecord))
    (h : m.length ≤ maxIds) : pruneProcessed maxIds m = m := by
  rw [pruneProcessed, if_neg (Nat.not_lt.mpr h)]

theorem jsSliceNeg_of_le {α : Type} (n : Nat) (l : List α) (h : l.length ≤ n) :
    jsSliceNeg n l = l := by
  rw [jsSliceNeg]
  by_cases hn : n = 0
  · rw [if_pos hn]
  · rw [if_neg hn]
    have h0 : l.length - n = 0 := Nat.sub_eq_zero_of_le h
    rw [h0, List.drop_zero]

theorem llmFailure_startsWith (e : String) :
    jsStartsWith ("LLM failure: " ++ e) "LLM failure" = true := by
  have h : ("LLM failure: " : String) = "LLM failure" ++ ": " := rfl
  rw [jsStartsWith, h, List.isPrefixOf_iff_prefix]
  rw [String.data_append, String.data_append, List.append_assoc]
  exact List.prefix_append _ _

/-- When the classifier call throws, `processSingleMessage` reduces to:
record the LLM error, append the synthetic failure Decision, mark the
identifier processed (the `LLM failure` reason makes the status
`error`), and save. -/
theorem processSingleMessage_llm_failure (cfg : PipelineConfig) (now : Nat)
    (messageId gmailLink errMsg : String) (parsed : ParsedEmail)
    (sendRes : Except String String) (st : MailState)
    (hnew : lookupProcessed st.processed messageId = none) :
    processSingleMessage cfg now messageId (.ok parsed) gmailLink
        (.error errMsg) sendRes st
      = saveState cfg now (markProcessed now messageId "error"
          ("LLM failure: " ++ errMsg)
          (addDecision (llmFailureDecision messageId gmailLink parsed errMsg now)
            (setLLMError now errMsg (bumpLLMRequests st)))) := by
  rw [processSingleMessage, hnew]
  simp only [Option.isSome_none, Bool.false_eq_true, if_false]
  rw [finishDecision]
  simp only [llmFailureDecision, llmFailure_startsWith, if_true, Bool.false_eq_true,
    if_false]

/-- C2 (amended): when the classifier call throws while processing a not
yet processed item (and the processed map is below its retention
ceiling), the item reaches the terminal status `error` — not `ok` as the
claim states — with a Decision whose verdict (`notify`) is `false` and
whose reason carries the failure detail, and no alert is dispatched: the
send counter, the send history (up to retention slicing) and both
channel stats blocks are untouched. -/
theorem C2_classifier_failure_reaches_error_terminal (cfg : PipelineConfig)
    (now : Nat) (messageId gmailLink errMsg : String) (parsed : ParsedEmail)
    (sendRes : Except String String) (st : MailState)
    (hnew : lookupProcessed st.processed messageId = none)
    (hroom : st.processed.length < cfg.maxProcessedIds) :
    (lookupProcessed (processSingleMessage cfg now messageId (.ok parsed) gmailLink
          (.error errMsg) sendRes st).processed messageId
        = some { processed_at := now, status := "error",
                 error := "LLM failure: " ++ errMsg })
      ∧ (processSingleMessage cfg now messageId (.ok parsed) gmailLink
            (.error errMsg) sendRes st).recent_decisions
          = jsSliceNeg cfg.recentLimit (st.recent_decisions
              ++ [llmFailureDecision messageId gmailLink parsed errMsg now])
      ∧ (llmFailureDecision messageId gmailLink parsed errMsg now).notify = false
      ∧ (llmFailureDecision messageId gmailLink parsed errMsg now).reason
          = "LLM failure: " ++ errMsg
      ∧ (processSingleMessage cfg now messageId (.ok parsed) gmailLink
            (.error errMsg) sendRes st).stats.notifications_sent
          = st.stats.notifications_sent
      ∧ (processSingleMessage cfg now messageId (.ok parsed) gmailLink
            (.error errMsg) sendRes st).recent_sends
          = jsSliceNeg cfg.recentLimit st.recent_sends
      ∧ (processSingleMessage cfg now messageId (.ok parsed) gmailLink
            (.error errMsg) sendRes st).stats.twilio = st.stats.twilio
      ∧ (processSingleMessage cfg now messageId (.ok parsed) gmailLink
            (.error errMsg) sendRes st).stats.pushover = st.stats.pushover := by
  rw [processSingleMessage_llm_failure cfg now messageId gmailLink errMsg parsed
    sendRes st hnew]
  have hany := lookup_none_any_false st.processed messageId hnew
  refine ⟨?_, rfl, rfl, rfl, rfl, rfl, rfl, rfl⟩
  have h1 : (saveState cfg now (markProcessed now messageId "error"
        ("LLM failure: " ++ errMsg)
        (addDecision (llmFailureDecision messageId gmailLink parsed errMsg now)
          (setLLMError now errMsg (bumpLLMRequests st))))).processed
      = pruneProcessed cfg.maxProcessedIds (objInsert st.processed messageId
          { processed_at := now, status := "error",
            error := "LLM failure: " ++ errMsg }) := rfl
  rw [h1, objInsert_append _ _ _ hany, pruneProcessed_of_le _ _ (by
    rw [List.length_append]
    simpa using hroom)]
  exact lookup_append_self _ _ _ hany

/-- Witness for C2 on a concrete timed-out classification. -/
theorem C2_classifier_failure_reaches_error_terminal_witness :
    lookupProcessed (processSingleMessage ⟨"pushover", 550, 5000, 50, 5000⟩ 1000 "X"
        (.ok ⟨"X", "t1", "d", "a@b.test", "c@d.test", "", "subj", "body"⟩) "link"
        (.error "timeout of 30000ms exceeded") (.ok "r") initState).processed "X"
      = some { processed_at := 1000, status := "error",
               error := "LLM failure: " ++ "timeout of 30000ms exceeded" } :=
  (C2_classifier_failure_reaches_error_terminal ⟨"pushover", 550, 5000, 50, 5000⟩
    1000 "X" "link" "timeout of 30000ms exceeded"
    ⟨"X", "t1", "d", "a@b.test", "c@d.test", "", "subj", "body"⟩ (.ok "r") initState
    (by decide) (by decide)).1

/-- C2 fails as stated: the terminal status on classifier failure is
`error`, not `ok` — `markProcessed` branches on the `LLM failure` reason
prefix. -/
theorem C2_counterexample :
    (lookupProcessed (processSingleMessage ⟨"pushover", 550, 5000, 50, 5000⟩ 1000
          "X" (.ok ⟨"X", "t1", "d", "a@b.test", "c@d.test", "", "subj", "body"⟩)
          "link" (.error "timeout of 30000ms exceeded") (.ok "r")
          initState).processed "X").map (fun r => r.status) = some "error"
      ∧ ¬((lookupProcessed (processSingleMessage ⟨"pushover", 550, 5000, 50, 5000⟩
          1000 "X" (.ok ⟨"X", "t1", "d", "a@b.test", "c@d.test", "", "subj", "body"⟩)
          "link" (.error "timeout of 30000ms exceeded") (.ok "r")
          initState).processed "X").map (fun r => r.status) = some "ok") := by
  decide

/-- C4 fails as stated when the `save()` in the `finally` block itself
throws: `await save()` precedes `pollLock = false`, so the rejection
leaves the lock held and nothing persisted. -/
theorem C4_counterexample :
    ((pollGmailTick ⟨"pushover", 550, 5000, 50, 5000⟩ 1000
          { pollLock := false, st := initState, persisted := none }
          (.ok []) false).1).pollLock = true
      ∧ ((pollGmailTick ⟨"pushover", 550, 5000, 50, 5000⟩ 1000
          { pollLock := false, st := initState, persisted := none }
          (.ok []) false).1).persisted = none := by
  decide

/-! ### Claim theorems: token-event pruning (C7) -/

/-- C7 (amended): as long as the stored token events number at most the
configured count cap (`tokenEventLimit`, default 5000), `save()` prunes
them by the trailing 24-hour cutoff alone — no within-window event is
removed. -/
theorem C7_token_events_time_pruned_under_cap (cfg : PipelineConfig) (now : Nat)
    (st : MailState) (hcap : st.token_events.length ≤ cfg.tokenEventLimit) :
    (saveState cfg now st).token_events
      = st.token_events.filter (fun ev => cutoff24h now ≤ ev.ts) := by
  have hs : jsSliceNeg cfg.tokenEventLimit st.token_events = st.token_events :=
    jsSliceNeg_of_le _ _ hcap
  simp [saveState, prune, computeLast24h, hs]

/-- Witness for C7: one within-window event under the default cap
survives `save()` untouched. -/
theorem C7_token_events_time_pruned_under_cap_witness :
    (saveState ⟨"pushover", 550, 5000, 50, 5000⟩ 200
        { initState with token_events := [⟨100, 3⟩] }).token_events
      = ({ initState with
            token_events := [⟨100, 3⟩] } : MailState).token_events.filter
          (fun ev => cutoff24h 200 ≤ ev.ts) :=
  C7_token_events_time_pruned_under_cap ⟨"pushover", 550, 5000, 50, 5000⟩ 200
    { initState with token_events := [⟨100, 3⟩] } (by decide)

/-- C7 fails as stated: `prune()` also slices token events to the newest
`tokenEventLimit` by count, so with the limit configured to 1 a second
within-window event is removed by `save()` although its timestamp lies
inside the trailing 24-hour window. -/
theorem C7_counterexample :
    (⟨1000, 5⟩ : TokenEvent)
        ∈ ({ initState with
              token_events := [⟨1000, 5⟩, ⟨1000, 7⟩] } : MailState).token_events
      ∧ cutoff24h 1000 ≤ 1000
      ∧ (⟨1000, 5⟩ : TokenEvent)
          ∉ (saveState ⟨"pushover", 550, 5000, 50, 1⟩ 1000
              { initState with
                token_events := [⟨1000, 5⟩, ⟨1000, 7⟩] }).token_events := by
  decide

/-! ### Claim theorems: health aggregation (C8, C9) -/

/-- A dependency with a currently-set error string is never reported
healthy: every health boolean in `buildHealth` conjoins
`!stats.x.last_error`. -/
theorem depHealth_false_of_error (d : Dep) (now pollIntervalMs : Nat) (st : Stats)
    (h : depError d st ≠ "") : depHealth d now pollIntervalMs st = false := by
  cases d with
  | gmail =>
      simp only [depError] at h
      simp [depHealth, gmailHealthOk, h]
  | llm =>
      simp only [depError] at h
      simp [depHealth, llmHealthOk, h]
  | twilio =>
      simp only [depError] at h
      simp [depHealth, twilioHealthOk, h]
  | pushover =>
      simp only [depError] at h
      simp [depHealth, pushoverHealthOk, h]

/-- Non-success mutators never clear a set error: they either leave the
dependency's error field alone or overwrite it with the (non-empty)
message of a newly thrown error. -/
theorem depError_persists (st : MailState) (e : StEvent) (d : Dep)
    (hwf : ErrorDetailNonEmpty e) (hns : ¬ isSuccessEvent d e)
    (herr : depError d st.stats ≠ "") :
    depError d (stStep st e).stats ≠ "" := by
  cases e <;> cases d <;>
    (try (simp only [stStep, setLLMHealthCheck, markOutageAlertSent]; split_ifs)) <;>
    simp_all [stStep, depError, isSuccessEvent, ErrorDetailNonEmpty,
      markProcessed, addDecision, addSend, addTokenEvent, computeLast24h,
      bumpLLMRequests, recordGmailPoll, revertGmailPoll, setGmailOk,
      setGmailError, setLLMOk, setLLMError, setLLMHealthCheck,
      setLLMQueueStats, incrementLLMQueueDropped, setTwilioOk, setTwilioError,
      setPushoverOk, setPushoverError, markOutageAlertSent, saveState, prune]

/-- C8: for every dependency the derived health boolean is false whenever
that dependency's error string is non-empty; and across every state-store
mutator carrying real (non-empty) error details, a state with a set error
can only become healthy again through that dependency's success mutator —
every other event leaves it unhealthy. -/
theorem C8_no_health_with_set_error :
    (∀ (d : Dep) (now pollIntervalMs : Nat) (st : Stats),
        depError d st ≠ "" → depHealth d now pollIntervalMs st = false)
      ∧ (∀ (st : MailState) (e : StEvent) (d : Dep) (now pollIntervalMs : Nat),
          ErrorDetailNonEmpty e → ¬ isSuccessEvent d e →
            depError d st.stats ≠ "" →
              depHealth d now pollIntervalMs (stStep st e).stats = false) := by
  refine ⟨depHealth_false_of_error, ?_⟩
  intro st e d now pollIntervalMs hwf hns herr
  exact depHealth_false_of_error d now pollIntervalMs _
    (depError_persists st e d hwf hns herr)

/-- Witness for C8: with a Gmail error set, Gmail health is down, and
stays down across an unrelated mutator. -/
theorem C8_no_health_with_set_error_witness :
    depHealth Dep.gmail 1000 60000
        (setGmailError 500 "quota exceeded" initState).stats = false
      ∧ depHealth Dep.gmail 1000 60000
          (stStep (setGmailError 500 "quota exceeded" initState)
            StEvent.evBumpLLMRequests).stats = false :=
  ⟨C8_no_health_with_set_error.1 Dep.gmail 1000 60000
      (setGmailError 500 "quota exceeded" initState).stats (by decide),
   C8_no_health_with_set_error.2 (setGmailError 500 "quota exceeded" initState)
      StEvent.evBumpLLMRequests Dep.gmail 1000 60000 (by trivial) (by simp [isSuccessEvent])
      (by decide)⟩

/-- C9 (amended): the classifier is reported healthy exactly when it has
no currently-set error and either a success lies within the fixed
5-minute window or a health probe has ever been recorded
(`last_health_check_at ≠ 0`) — the probe's age and outcome are not
consulted (a failed probe blocks health only through the error message it
records). -/
theorem C9_llm_health_characterization (now : Nat) (st : Stats) :
    (st.llm.last_error ≠ "" → llmHealthOk now st = false)
      ∧ (st.llm.last_error = "" → st.llm.last_health_check_at ≠ 0 →
          llmHealthOk now st = true)
      ∧ (st.llm.last_health_check_at = 0 → llmRecent now st = false →
          llmHealthOk now st = false) := by
  refine ⟨?_, ?_, ?_⟩
  · intro h
    simp [llmHealthOk, h]
  · intro h1 h2
    simp [llmHealthOk, h1, h2]
  · intro h1 h2
    simp [llmHealthOk, h1, h2]

/-- Witness for C9's characterization at concrete stats. -/
theorem C9_llm_health_characterization_witness :
    llmHealthOk 1000000000 (setLLMHealthCheck 1 true 5 "" initState).stats = true :=
  (C9_llm_health_characterization 1000000000
      (setLLMHealthCheck 1 true 5 "" initState).stats).2.1 (by decide) (by decide)

/-- C9 fails as stated: after a single successful probe at time 1, at a
`now` far beyond every recency window the classifier is still reported
healthy although no success and no probe is recent — `buildHealth` only
tests `last_health_check_at` for truthiness. -/
theorem C9_counterexample :
    llmHealthOk 1000000000 (setLLMHealthCheck 1 true 5 "" initState).stats = true
      ∧ llmRecent 1000000000 (setLLMHealthCheck 1 true 5 "" initState).stats = false
      ∧ 5 * 60 * 1000
          < 1000000000
            - (setLLMHealthCheck 1 true 5 "" initState).stats.llm.last_health_check_at := by
  decide

/-! ### Claim theorems: latency aggregate (C10) -/

/-- C10: `setLLMOk` updates `avg_latency_ms` as a recency-weighted blend:
the new sample if the stored average was 0, otherwise the half-up-rounded
mean of the stored average and the new sample — not the arithmetic mean
of all samples, as the concrete sequence 100, 50, 10 shows (blend 43
versus sample mean 53). -/
theorem C10_avg_latency_recency_blend :
    (∀ (now latencyMs : Nat) (st : MailState),
        (setLLMOk now latencyMs st).stats.llm.avg_latency_ms
          = if st.stats.llm.avg_latency_ms = 0 then latencyMs
            else jsRoundHalfDiv2 (st.stats.llm.avg_latency_ms + latencyMs))
      ∧ (setLLMOk 3 10 (setLLMOk 2 50
            (setLLMOk 1 100 initState))).stats.llm.avg_latency_ms = 43
      ∧ (100 + 50 + 10) / 3 = 53
      ∧ (setLLMOk 3 10 (setLLMOk 2 50
            (setLLMOk 1 100 initState))).stats.llm.avg_latency_ms ≠ 53 := by
  refine ⟨?_, by decide, by decide, by decide⟩
  intro now latencyMs st
  rfl

end MailScreener
